import Mathlib

/-!
# httptrace reproduction harness (`src/httptrace/repro.go`)

A shallow embedding of the Go program `main` of `repro.go` and the proofs of
the properties its specification states about it.

The program's own code is embedded function by function:

* `flagParse`         lines 22-24 (`flag.BoolVar` / `flag.Parse`, with the
                      behaviour of the Go standard library `flag` package for the
                      one registered boolean flag),
* `selectClient`      lines 26-47,
* `tracer`            lines 49-91,
* `worker`            lines 96-116 (the body of the goroutine),
* `mainThread`        lines 93-95 and 118-121,
* `main`              the whole of `main`.

Everything the program only calls into (the network transport behind
`client.Do`, the rendering of library structs by `%v`) is an input of the
embedding (`World`, the `fmtV` field of a payload). The callbacks of the tracer
are taken to run while `client.Do` runs, on the goroutine that called it.

The two goroutines of the program (the main one and the worker) are run by
`run` under an arbitrary schedule; a statement about "every run" is a statement
for every schedule.
-/

namespace Repro

/-! ## Strings and `fmt.Printf` -/

/-- Values of Go's `error` interface as this program sees them: `nil`, or an
error with its `Error()` text. -/
abbrev GoError := Option String

/-- Rendering of an `error` by the verb `%v`: `<nil>` for nil, the `Error()`
text otherwise. -/
def fmtError : GoError → String
  | none => "<nil>"
  | some msg => msg

/-- Expansion of a format: every `%v` takes the next operand (already rendered);
a `%v` with no operand left prints `%!v(MISSING)` as `fmt` does. The formats of
this program contain no other verb. -/
def sprintfAux : List Char → List String → List Char
  | [], _ => []
  | [c], _ => [c]
  | c :: d :: rest, args =>
    if c = '%' ∧ d = 'v' then
      match args with
      | a :: args' => a.data ++ sprintfAux rest args'
      | [] => "%!v(MISSING)".data ++ sprintfAux rest []
    else c :: sprintfAux (d :: rest) args

/-- The text `fmt.Printf(format, operands...)` writes, the operands given by
their `%v` renderings. -/
def sprintf (format : String) (args : List String) : String :=
  String.mk (sprintfAux format.data args)

/-- The label of a format: its literal text up to the first verb. -/
def label (format : String) : String :=
  String.mk (format.data.takeWhile (fun c => c != '%'))

/-! ## Library payloads

The program never inspects a payload struct: it hands each one to `%v`. A
struct payload is therefore represented by what `%v` prints for it. -/

/-- Payload `httptrace.DNSStartInfo`. -/
structure DNSStartInfo where
  fmtV : String

/-- Payload `httptrace.DNSDoneInfo`. -/
structure DNSDoneInfo where
  fmtV : String

/-- Payload `httptrace.GotConnInfo`. -/
structure GotConnInfo where
  fmtV : String

/-- Payload `tls.ConnectionState`. -/
structure ConnectionState where
  fmtV : String

/-- Payload `httptrace.WroteRequestInfo`. -/
structure WroteRequestInfo where
  fmtV : String

/-- The value `*http.Response` returned by `client.Do`, as `%v` prints it. -/
structure Response where
  fmtV : String

/-! ## Client configuration (lines 26-47) -/

/-- The part of `tls.Config` the program sets. -/
structure TLSConfig where
  InsecureSkipVerify : Bool
deriving DecidableEq, Repr

/-- The part of `http2.Transport` the program sets; `none` is the zero value of
the field `TLSClientConfig`. -/
structure Http2Transport where
  TLSClientConfig : Option TLSConfig
deriving DecidableEq, Repr

/-- The value `http.Client`: `Transport = none` is the nil `RoundTripper`, for
which the library uses `http.DefaultTransport`. -/
structure Client where
  Transport : Option Http2Transport
deriving DecidableEq, Repr

/-! ## Effects and the tracer (lines 49-91) -/

/-- The observable actions of a goroutine of this program, in program order. -/
inductive Effect where
  /-- One call of `fmt.Printf`: one write of the text to standard output. -/
  | print (text : String)
  /-- The call `wg.Add(n)`. -/
  | wgAdd (n : Int)
  /-- The call `wg.Done()`. -/
  | wgDone
  /-- The call `wg.Wait()`, recorded when it returns. -/
  | wgWait
  /-- The statement `go func() ...`: starts the worker with the given body. -/
  | go (body : List Effect)
  /-- The call `http.NewRequestWithContext(ctx, method, url, body)`; `hooks` is
  the number of callbacks set in the trace carried by `ctx`. -/
  | newRequest (hooks : Nat) (method url : String) (body : Option String)
  /-- The call `client.Do(req)`. -/
  | clientDo (client : Client) (hooks : Nat) (method url : String) (body : Option String)
  /-- The call `get.Body.Close()`. -/
  | bodyClose

/-- The moments of a connection's life `httptrace.ClientTrace` has a hook for,
each with the operands the hook receives. -/
inductive Event where
  | getConn (hostPort : String)
  | gotConn (connInfo : GotConnInfo)
  | putIdleConn (err : GoError)
  | gotFirstResponseByte
  | got100Continue
  | got1xxResponse (code : Int) (header : List (String × List String))
  | dnsStart (dnsStartInfo : DNSStartInfo)
  | dnsDone (dnsDoneInfo : DNSDoneInfo)
  | connectStart (network address : String)
  | connectDone (network address : String) (err : GoError)
  | tlsHandshakeStart
  | tlsHandshakeDone (tlsConnState : ConnectionState) (err : GoError)
  | wroteHeaderField (key : String) (value : List String)
  | wroteHeaders
  | wait100Continue
  | wroteRequest (info : WroteRequestInfo)

/-- The struct `httptrace.ClientTrace`: one optional hook per moment; a hook is
a Go function, embedded as the effects one call of it performs. -/
structure ClientTrace where
  GetConn : Option (String → List Effect) := none
  GotConn : Option (GotConnInfo → List Effect) := none
  PutIdleConn : Option (GoError → List Effect) := none
  GotFirstResponseByte : Option (List Effect) := none
  Got100Continue : Option (List Effect) := none
  Got1xxResponse : Option (Int → List (String × List String) → List Effect) := none
  DNSStart : Option (DNSStartInfo → List Effect) := none
  DNSDone : Option (DNSDoneInfo → List Effect) := none
  ConnectStart : Option (String → String → List Effect) := none
  ConnectDone : Option (String → String → GoError → List Effect) := none
  TLSHandshakeStart : Option (List Effect) := none
  TLSHandshakeDone : Option (ConnectionState → GoError → List Effect) := none
  WroteHeaderField : Option (String → List String → List Effect) := none
  WroteHeaders : Option (List Effect) := none
  Wait100Continue : Option (List Effect) := none
  WroteRequest : Option (WroteRequestInfo → List Effect) := none

/-- The eight event kinds of the table of the specification (section 6), under
the names of the hooks of `httptrace.ClientTrace`. -/
inductive EventKind where
  | DNSStart | DNSDone | GetConn | GotConn
  | ConnectStart | ConnectDone | TLSHandshakeStart | TLSHandshakeDone
deriving DecidableEq, Repr

/-- Every event kind of the table. -/
def EventKind.all : List EventKind :=
  [.DNSStart, .DNSDone, .GetConn, .GotConn,
   .ConnectStart, .ConnectDone, .TLSHandshakeStart, .TLSHandshakeDone]

/-- Number of callbacks a trace holds for an event kind of the table. -/
def ClientTrace.registered (t : ClientTrace) : EventKind → Nat
  | .DNSStart => t.DNSStart.toList.length
  | .DNSDone => t.DNSDone.toList.length
  | .GetConn => t.GetConn.toList.length
  | .GotConn => t.GotConn.toList.length
  | .ConnectStart => t.ConnectStart.toList.length
  | .ConnectDone => t.ConnectDone.toList.length
  | .TLSHandshakeStart => t.TLSHandshakeStart.toList.length
  | .TLSHandshakeDone => t.TLSHandshakeDone.toList.length

/-- Number of hooks set in a trace, over all sixteen fields of the struct. -/
def ClientTrace.hookCount (t : ClientTrace) : Nat :=
  t.GetConn.toList.length + t.GotConn.toList.length + t.PutIdleConn.toList.length
  + t.GotFirstResponseByte.toList.length + t.Got100Continue.toList.length
  + t.Got1xxResponse.toList.length + t.DNSStart.toList.length + t.DNSDone.toList.length
  + t.ConnectStart.toList.length + t.ConnectDone.toList.length
  + t.TLSHandshakeStart.toList.length + t.TLSHandshakeDone.toList.length
  + t.WroteHeaderField.toList.length + t.WroteHeaders.toList.length
  + t.Wait100Continue.toList.length + t.WroteRequest.toList.length

/-- The format string each callback of the tracer literal passes to
`fmt.Printf` (lines 52, 57, 60, 64, 72, 78, 83, 87). -/
def formatOf : EventKind → String
  | .DNSStart => "DNS Start: %v\n"
  | .DNSDone => "DNS Done: %v\n"
  | .ConnectStart => "ConnectStart: network: %v; address: %v\n"
  | .ConnectDone => "ConnectDone: %v: %v (%v)\n"
  | .GetConn => "GetConn host port: %v\n"
  | .GotConn => "GetConn host port: %v\n"
  | .TLSHandshakeStart => "TLSHandshakeStart.\n"
  | .TLSHandshakeDone => "TLSHandshakeDone: %v\n"

/-- The tracer literal of lines 49-91: eight callbacks, each one call of
`fmt.Printf`; the other hooks of the struct stay nil. -/
def tracer : ClientTrace where
  DNSStart := some fun dnsStartInfo =>
    [.print (sprintf (formatOf .DNSStart) [dnsStartInfo.fmtV])]
  DNSDone := some fun dnsDoneInfo =>
    [.print (sprintf (formatOf .DNSDone) [dnsDoneInfo.fmtV])]
  ConnectStart := some fun network address =>
    [.print (sprintf (formatOf .ConnectStart) [network, address])]
  ConnectDone := some fun network address err =>
    [.print (sprintf (formatOf .ConnectDone) [network, address, fmtError err])]
  GetConn := some fun hostPort =>
    [.print (sprintf (formatOf .GetConn) [hostPort])]
  GotConn := some fun connInfo =>
    [.print (sprintf (formatOf .GotConn) [connInfo.fmtV])]
  TLSHandshakeStart := some
    [.print (sprintf (formatOf .TLSHandshakeStart) [])]
  TLSHandshakeDone := some fun tlsConnState _err =>
    [.print (sprintf (formatOf .TLSHandshakeDone) [tlsConnState.fmtV])]

/-- The kind of the table an event belongs to, if any. -/
def Event.kind : Event → Option EventKind
  | .dnsStart _ => some .DNSStart
  | .dnsDone _ => some .DNSDone
  | .getConn _ => some .GetConn
  | .gotConn _ => some .GotConn
  | .connectStart _ _ => some .ConnectStart
  | .connectDone _ _ _ => some .ConnectDone
  | .tlsHandshakeStart => some .TLSHandshakeStart
  | .tlsHandshakeDone _ _ => some .TLSHandshakeDone
  | _ => none

/-- What the transport does when it reaches a moment: it calls the hook of the
trace if one is set and does nothing otherwise. -/
def emit (t : ClientTrace) : Event → List Effect
  | .getConn hostPort => match t.GetConn with
    | some f => f hostPort | none => []
  | .gotConn connInfo => match t.GotConn with
    | some f => f connInfo | none => []
  | .putIdleConn err => match t.PutIdleConn with
    | some f => f err | none => []
  | .gotFirstResponseByte => match t.GotFirstResponseByte with
    | some f => f | none => []
  | .got100Continue => match t.Got100Continue with
    | some f => f | none => []
  | .got1xxResponse code header => match t.Got1xxResponse with
    | some f => f code header | none => []
  | .dnsStart info => match t.DNSStart with
    | some f => f info | none => []
  | .dnsDone info => match t.DNSDone with
    | some f => f info | none => []
  | .connectStart network address => match t.ConnectStart with
    | some f => f network address | none => []
  | .connectDone network address err => match t.ConnectDone with
    | some f => f network address err | none => []
  | .tlsHandshakeStart => match t.TLSHandshakeStart with
    | some f => f | none => []
  | .tlsHandshakeDone state err => match t.TLSHandshakeDone with
    | some f => f state err | none => []
  | .wroteHeaderField key value => match t.WroteHeaderField with
    | some f => f key value | none => []
  | .wroteHeaders => match t.WroteHeaders with
    | some f => f | none => []
  | .wait100Continue => match t.Wait100Continue with
    | some f => f | none => []
  | .wroteRequest info => match t.WroteRequest with
    | some f => f info | none => []

/-! ## The request and the worker (lines 96-116) -/

/-- The part of `context.Context` the program uses: the trace attached to it. -/
structure Context where
  clientTrace : Option ClientTrace

/-- The value `context.Background()`: no trace attached. -/
def background : Context := ⟨none⟩

/-- The call `httptrace.WithClientTrace(ctx, trace)` on a context that carries no
trace yet: a new context carrying `trace`. -/
def withClientTrace (_ctx : Context) (trace : ClientTrace) : Context := ⟨some trace⟩

/-- The part of `http.Request` the program determines. -/
structure Request where
  ctx : Context
  Method : String
  URL : String
  Body : Option String

/-- Number of hooks set in the trace a context carries. -/
def Context.hooks (ctx : Context) : Nat :=
  match ctx.clientTrace with
  | some t => t.hookCount
  | none => 0

/-- What lies outside the program: whether request construction reports an
error, and what the transport of a client does with a request (the moments it
reaches, in order, and the result of `client.Do`). -/
structure World where
  newRequestErr : GoError
  roundTrip : Client → Request → List Event × Except String Response

/-- The call `http.NewRequestWithContext`: the error of the world if there is
one, and otherwise the request made of the operands. -/
def newRequestWithContext (w : World) (ctx : Context) (method url : String)
    (body : Option String) : Except String Request :=
  match w.newRequestErr with
  | some err => .error err
  | none => .ok ⟨ctx, method, url, body⟩

/-- The call `fmt.Printf(format, operands...)` as an effect. -/
def printf (format : String) (args : List String) : Effect :=
  .print (sprintf format args)

/-- The call `client.Do(req)`: the transport runs and, at each moment it
reaches, calls the hook of the trace the request's context carries. -/
def clientDo (w : World) (client : Client) (req : Request) :
    List Effect × Except String Response :=
  let (events, result) := w.roundTrip client req
  let hooks := match req.ctx.clientTrace with
    | some t => events.flatMap (emit t)
    | none => []
  (.clientDo client req.ctx.hooks req.Method req.URL req.Body :: hooks, result)

/-- The body of the goroutine of lines 96-116. -/
def worker (w : World) (client : Client) (tracer : ClientTrace) : List Effect :=
  let ctx := withClientTrace background tracer
  .newRequest ctx.hooks "GET" "https://www.google.com" none ::
  match newRequestWithContext w ctx "GET" "https://www.google.com" none with
  | .error err =>
    [printf "Could not initialize NewRequestWithContext(): %v\n" [fmtError (some err)],
     .wgDone]
  | .ok req =>
    let (during, result) := clientDo w client req
    during ++
    match result with
    | .ok get =>
      [printf "Response header: \n" [],
       printf "%v\n" [get.fmtV],
       printf "\n" [],
       .bodyClose,
       .wgDone]
    | .error err =>
      [printf "Failure: %v\n" [fmtError (some err)],
       .wgDone]

/-! ## Client selection (lines 26-47) and the main goroutine -/

/-- Lines 26-47: the banner printed and the client built, by the flag. -/
def selectClient (demonstrateBug : Bool) : Effect × Client :=
  if demonstrateBug then
    (printf "Demonstrating buggy behavior.\n" [],
     { Transport := some { TLSClientConfig := some { InsecureSkipVerify := true } } })
  else
    (printf "Demonstrating expected behavior.\n" [],
     { Transport := none })

/-- The effects of the main goroutine after flag parsing, in program order
(lines 28-47, 95, 96, 118, 119, 121). -/
def mainThread (demonstrateBug : Bool) (w : World) : List Effect :=
  let (banner, client) := selectClient demonstrateBug
  [banner,
   .wgAdd 1,
   .go (worker w client tracer),
   printf "The waiting is the hardest part.\n" [],
   .wgWait,
   printf "All done!\n" []]

/-! ## Execution of the two goroutines -/

/-- The process while it runs: the effects performed so far (oldest first), the
counter of the wait group, and what each goroutine has still to do. -/
structure State where
  trace : List Effect
  wg : Int
  mainT : List Effect
  workerT : List Effect

/-- What an attempt to advance a goroutine gives. -/
inductive Step where
  /-- The goroutine performed its next effect. -/
  | next (s : State)
  /-- The goroutine has returned, or is blocked in `wg.Wait`. -/
  | stuck
  /-- The goroutine panicked (`sync: negative WaitGroup counter`). -/
  | crash

/-- One goroutine (the main one or the worker) attempts its next effect. -/
def State.advance (s : State) (onMain : Bool) : Step :=
  match (if onMain then s.mainT else s.workerT) with
  | [] => .stuck
  | e :: rest =>
    let s' : State := if onMain then { s with mainT := rest } else { s with workerT := rest }
    match e with
    | .go body => .next { s' with trace := s.trace ++ [e], workerT := s'.workerT ++ body }
    | .wgAdd n =>
      if s.wg + n < 0 then .crash
      else .next { s' with trace := s.trace ++ [e], wg := s.wg + n }
    | .wgDone =>
      if s.wg - 1 < 0 then .crash
      else .next { s' with trace := s.trace ++ [e], wg := s.wg - 1 }
    | .wgWait =>
      if s.wg = 0 then .next { s' with trace := s.trace ++ [e] } else .stuck
    | _ => .next { s' with trace := s.trace ++ [e] }

/-- The goroutine a schedule names for the next step: `true` the main one,
`false` the worker; the main one once the schedule is used up. -/
def pick : List Bool → Bool
  | [] => true
  | b :: _ => b

/-- How a run of the process ends. -/
structure Result where
  exitCode : Nat
  trace : List Effect

/-- The process under a schedule: at each step the schedule names the goroutine
to advance (`pick`); if that goroutine cannot advance the other one does. The
process exits with status 0 when the main goroutine returns, and with status 2
on a panic or when no goroutine can advance (`all goroutines are asleep -
deadlock!`). The result is `none` when the fuel runs out first. -/
def run : Nat → List Bool → State → Option Result
  | 0, _, _ => none
  | fuel + 1, sched, s =>
    match s.mainT with
    | [] => some ⟨0, s.trace⟩
    | _ :: _ =>
      match s.advance (pick sched) with
      | .crash => some ⟨2, s.trace⟩
      | .next s' => run fuel sched.tail s'
      | .stuck =>
        match s.advance (!(pick sched)) with
        | .crash => some ⟨2, s.trace⟩
        | .next s' => run fuel sched.tail s'
        | .stuck => some ⟨2, s.trace⟩

/-! ## What is observed of a run -/

/-- The text an effect writes to standard output, if it is a `fmt.Printf`. -/
def Effect.written : Effect → Option String
  | .print text => some text
  | _ => none

/-- The texts written to standard output, in order. -/
def stdout (trace : List Effect) : List String :=
  trace.filterMap Effect.written

/-- The request of a call of `http.NewRequestWithContext`: the number of hooks
of the trace its context carries, the method, the URL and the body. -/
def Effect.built : Effect → Option (Nat × String × String × Option String)
  | .newRequest hooks method url body => some (hooks, method, url, body)
  | _ => none

/-- The requests built during a run, in order. -/
def requestsBuilt (trace : List Effect) : List (Nat × String × String × Option String) :=
  trace.filterMap Effect.built

/-- The client and the request of a call of `client.Do`. -/
def Effect.sent : Effect → Option (Client × Nat × String × String × Option String)
  | .clientDo client hooks method url body => some (client, hooks, method, url, body)
  | _ => none

/-- The calls of `client.Do` during a run, in order. -/
def requestsSent (trace : List Effect) :
    List (Client × Nat × String × String × Option String) :=
  trace.filterMap Effect.sent

/-- Whether an effect is a call of `get.Body.Close()`. -/
def Effect.isBodyClose : Effect → Bool
  | .bodyClose => true
  | _ => false

/-- Whether an effect is a call of `wg.Done()`. -/
def Effect.isWgDone : Effect → Bool
  | .wgDone => true
  | _ => false

/-- Whether an effect is a call of `wg.Add`. -/
def Effect.isWgAdd : Effect → Bool
  | .wgAdd _ => true
  | _ => false

/-- What an effect adds to the counter of the wait group. -/
def Effect.delta : Effect → Int
  | .wgAdd n => n
  | .wgDone => -1
  | _ => 0

/-- The counter of the wait group after the given effects, from zero. -/
def wgCounter (trace : List Effect) : Int :=
  (trace.map Effect.delta).sum

/-- Effects that neither touch the wait group nor start a goroutine. -/
def Effect.plain : Effect → Bool
  | .print _ => true
  | .newRequest _ _ _ _ => true
  | .clientDo _ _ _ _ _ => true
  | .bodyClose => true
  | _ => false

/-- Number of leading steps a schedule gives to the worker. -/
def workerLead : List Bool → Nat
  | false :: rest => workerLead rest + 1
  | _ => 0

/-- The request the worker builds (line 97). -/
def theRequest : Request :=
  ⟨withClientTrace background tracer, "GET", "https://www.google.com", none⟩

/-- The lines the worker writes, path by path: request construction failed;
`client.Do` failed; `client.Do` succeeded. -/
def workerLines (w : World) (client : Client) : List String :=
  match w.newRequestErr with
  | some err => ["Could not initialize NewRequestWithContext(): " ++ err ++ "\n"]
  | none =>
    stdout ((w.roundTrip client theRequest).1.flatMap (emit tracer)) ++
    match (w.roundTrip client theRequest).2 with
    | .ok get => ["Response header: \n", get.fmtV ++ "\n", "\n"]
    | .error err => ["Failure: " ++ err ++ "\n"]

/-- Number of times the worker is expected to close a response body, path by
path. -/
def expectedBodyCloses (w : World) (client : Client) : Nat :=
  match w.newRequestErr with
  | some _ => 0
  | none =>
    match (w.roundTrip client theRequest).2 with
    | .ok _ => 1
    | .error _ => 0

/-- A world for the examples: request construction succeeds, and the transport
of either client reports the acquisition of a connection and a response. -/
def sampleWorld : World where
  newRequestErr := none
  roundTrip := fun _ _ =>
    ([.getConn "www.google.com:443", .gotConn ⟨"(conn)"⟩], .ok ⟨"(response)"⟩)

/-! ## Flag parsing (lines 22-24) -/

/-- The boolean texts `strconv.ParseBool` accepts, which `flag` uses for the
value of `-name=value`. -/
def parseBool (value : String) : Option Bool :=
  if value ∈ ["1", "t", "T", "TRUE", "true", "True"] then some true
  else if value ∈ ["0", "f", "F", "FALSE", "false", "False"] then some false
  else none

/-- What `flag` makes of one argument. -/
inductive ParseOne where
  /-- Not a flag (shorter than two bytes, not starting with `-`, or `--`):
  parsing stops without an error. -/
  | stop
  /-- The flag `bug`, with the value it sets. -/
  | set (value : Bool)
  /-- An undefined flag `-h` or `-help`: usage is printed to standard error. -/
  | help
  /-- Bad flag syntax, an undefined flag other than `-h` and `-help`, or an
  invalid boolean value. -/
  | bad
deriving DecidableEq, Repr

/-- The function `(*FlagSet).parseOne` of package `flag` on one argument, for
the flag set of this program: the single boolean flag `bug`. The tests of
`parseOne` on single bytes (`-`, `=`) are tests on ASCII characters, so they read
the same on the characters of the argument. -/
def parseOne (s : String) : ParseOne :=
  match s.data with
  | [] => .stop
  | [_] => .stop
  | c0 :: c1 :: rest =>
    if c0 ≠ '-' then .stop
    else if c1 = '-' ∧ rest = [] then .stop
    else
      let name := if c1 = '-' then rest else c1 :: rest
      match name with
      | [] => .bad
      | n0 :: _ =>
        if n0 = '-' ∨ n0 = '=' then .bad
        else
          let flagName := String.mk (name.takeWhile (fun c => c != '='))
          let after := name.dropWhile (fun c => c != '=')
          if flagName = "bug" then
            match after with
            | [] => .set true
            | _ :: value =>
              match parseBool (String.mk value) with
              | some b => .set b
              | none => .bad
          else if flagName = "help" ∨ flagName = "h" then .help
          else .bad

/-- How `flag.Parse()` ends. -/
inductive ParseResult where
  /-- Parsing succeeded; the value left in `demonstrateBug`. -/
  | ok (demonstrateBug : Bool)
  /-- Help was asked for: `flag.Parse` ends the process with status 0. -/
  | help
  /-- Parsing failed: `flag.Parse` ends the process with status 2. -/
  | fail
deriving DecidableEq, Repr

/-- The loop of `(*FlagSet).Parse` over the arguments, from the current value of
`demonstrateBug`. -/
def flagParseFrom (demonstrateBug : Bool) : List String → ParseResult
  | [] => .ok demonstrateBug
  | s :: rest =>
    match parseOne s with
    | .stop => .ok demonstrateBug
    | .set value => flagParseFrom value rest
    | .help => .help
    | .bad => .fail

/-- Lines 22-24: `demonstrateBug := false`, `flag.BoolVar` with default `false`,
`flag.Parse()` on the arguments of the command line. -/
def flagParse (args : List String) : ParseResult :=
  flagParseFrom false args

/-! ## The program -/

/-- The program from line 26 on, for a value of `demonstrateBug`. -/
def mainBody (demonstrateBug : Bool) (w : World) (sched : List Bool) : Option Result :=
  let prog := mainThread demonstrateBug w
  let (_, client) := selectClient demonstrateBug
  run (prog.length + (worker w client tracer).length + 1) sched
    { trace := [], wg := 0, mainT := prog, workerT := [] }

/-- The function `main`: the command line, the world and the schedule give the
exit status and the effects performed. A command line `flag.Parse` does not
accept ends the process inside `flag.Parse`, before anything is written to
standard output. -/
def main (args : List String) (w : World) (sched : List Bool) : Option Result :=
  match flagParse args with
  | .fail => some ⟨2, []⟩
  | .help => some ⟨0, []⟩
  | .ok demonstrateBug => mainBody demonstrateBug w sched

/-! ## The scheduler: every schedule runs the program to its end -/

/-- A plain effect of the worker is performed whatever the counter is. -/
theorem advance_worker_plain (t : List Effect) (wg : Int) (m ws : List Effect) (e : Effect)
    (he : e.plain = true) :
    State.advance ⟨t, wg, m, e :: ws⟩ false = .next ⟨t ++ [e], wg, m, ws⟩ := by
  cases e <;> simp_all [State.advance, Effect.plain]

/-- The main goroutine stays in `wg.Wait` while the counter is not zero. -/
theorem advance_main_wait_blocked (t : List Effect) (wg : Int) (m ws : List Effect)
    (hwg : wg ≠ 0) :
    State.advance ⟨t, wg, .wgWait :: m, ws⟩ true = .stuck := by
  simp [State.advance, hwg]

/-- One step of `run` while the main goroutine has not returned. -/
theorem run_cons (n : Nat) (sched : List Bool) (t m ws : List Effect) (wg : Int) (e : Effect) :
    run (n + 1) sched ⟨t, wg, e :: m, ws⟩
      = match State.advance ⟨t, wg, e :: m, ws⟩ (pick sched) with
        | .crash => some ⟨2, t⟩
        | .next s' => run n sched.tail s'
        | .stuck =>
          match State.advance ⟨t, wg, e :: m, ws⟩ (!(pick sched)) with
          | .crash => some ⟨2, t⟩
          | .next s' => run n sched.tail s'
          | .stuck => some ⟨2, t⟩ := rfl

/-- The process has exited once the main goroutine has returned. -/
theorem run_returned (n : Nat) (sched : List Bool) (t ws : List Effect) (wg : Int) :
    run (n + 1) sched ⟨t, wg, [], ws⟩ = some ⟨0, t⟩ := rfl

/-- While the main goroutine is blocked in `wg.Wait`, every schedule advances the worker. -/
theorem run_main_waiting (n : Nat) (sched : List Bool) (t m ws : List Effect) (wg : Int)
    (e : Effect) (hwg : wg ≠ 0) (he : e.plain = true) :
    run (n + 1) sched ⟨t, wg, .wgWait :: m, e :: ws⟩
      = run n sched.tail ⟨t ++ [e], wg, .wgWait :: m, ws⟩ := by
  rw [run_cons]
  generalize pick sched = b
  cases b
  · simp [advance_worker_plain _ _ _ _ _ he]
  · simp [advance_main_wait_blocked _ _ _ _ hwg, advance_worker_plain _ _ _ _ _ he]

/-- Once the worker has returned, every schedule advances the main goroutine. -/
theorem run_worker_returned (n : Nat) (sched : List Bool) (t m : List Effect) (wg : Int)
    (e : Effect) :
    run (n + 1) sched ⟨t, wg, e :: m, []⟩
      = match State.advance ⟨t, wg, e :: m, []⟩ true with
        | .crash => some ⟨2, t⟩
        | .next s' => run n sched.tail s'
        | .stuck => some ⟨2, t⟩ := by
  have hw : State.advance ⟨t, wg, e :: m, []⟩ false = .stuck := by simp [State.advance]
  rw [run_cons]
  generalize pick sched = b
  cases b
  · simp only [Bool.not_false, hw]
  · simp only [Bool.not_true, hw]

/-- The main goroutine alone, with the counter at zero: it leaves `wg.Wait`,
prints its last line and returns. -/
theorem run_main_alone_wait (n : Nat) (sched : List Bool) (t : List Effect) (b : String) :
    run (n + 3) sched ⟨t, 0, [.wgWait, .print b], []⟩
      = some ⟨0, t ++ [.wgWait, .print b]⟩ := by
  rw [show n + 3 = (n + 2) + 1 from rfl, run_worker_returned]
  simp only [State.advance, if_true]
  rw [show n + 2 = (n + 1) + 1 from rfl, run_worker_returned]
  simp only [State.advance, if_true]
  rw [run_returned]
  simp

/-- The main goroutine blocked in `wg.Wait` with the counter at one: the worker
runs to its `wg.Done`, whatever the schedule, and then the main goroutine ends. -/
theorem run_waiting (ws : List Effect) (hws : ∀ e ∈ ws, e.plain = true) :
    ∀ (n : Nat) (sched : List Bool) (t : List Effect) (b : String),
      run (n + ws.length + 4) sched ⟨t, 1, [.wgWait, .print b], ws ++ [.wgDone]⟩
        = some ⟨0, t ++ ws ++ [.wgDone, .wgWait, .print b]⟩ := by
  induction ws with
  | nil =>
    intro n sched t b
    simp only [List.length_nil, Nat.add_zero, List.nil_append, List.append_nil]
    rw [show n + 4 = (n + 3) + 1 from rfl, run_cons]
    have hm : State.advance ⟨t, 1, [.wgWait, .print b], [.wgDone]⟩ true = .stuck := by
      simp [State.advance]
    have hw : State.advance ⟨t, 1, [.wgWait, .print b], [.wgDone]⟩ false
        = .next ⟨t ++ [.wgDone], 0, [.wgWait, .print b], []⟩ := by
      simp [State.advance]
    generalize pick sched = p
    cases p
    · simp only [hw]
      rw [run_main_alone_wait]; simp
    · simp only [hm, Bool.not_true, hw]
      rw [run_main_alone_wait]; simp
  | cons e ws ih =>
    intro n sched t b
    have he : e.plain = true := hws e (List.mem_cons_self _ _)
    have h := ih (fun x hx => hws x (List.mem_cons_of_mem _ hx)) n sched.tail (t ++ [e]) b
    have hfuel : n + (e :: ws).length + 4 = (n + ws.length + 4) + 1 := by
      simp only [List.length_cons]; omega
    rw [hfuel, List.cons_append, run_main_waiting _ _ _ _ _ _ _ (by decide) he, h]
    simp

/-- The main goroutine alone, about to print, with the counter at zero. -/
theorem run_main_alone (n : Nat) (sched : List Bool) (t : List Effect) (a b : String) :
    run (n + 4) sched ⟨t, 0, [.print a, .wgWait, .print b], []⟩
      = some ⟨0, t ++ [.print a, .wgWait, .print b]⟩ := by
  rw [show n + 4 = (n + 3) + 1 from rfl, run_worker_returned]
  simp only [State.advance, if_true]
  rw [run_main_alone_wait]
  simp

/-- The two goroutines side by side: the schedule decides how many effects of the
worker come before the line the main goroutine prints; the rest follows it, and
the main goroutine leaves `wg.Wait` only after the worker's `wg.Done`. -/
theorem run_racing (ws : List Effect) (hws : ∀ e ∈ ws, e.plain = true) :
    ∀ (n : Nat) (sched : List Bool) (t : List Effect) (a b : String),
      run (n + ws.length + 5) sched ⟨t, 1, [.print a, .wgWait, .print b], ws ++ [.wgDone]⟩
        = some ⟨0, t ++ (ws ++ [Effect.wgDone]).take (workerLead sched) ++ [.print a]
                  ++ (ws ++ [Effect.wgDone]).drop (workerLead sched) ++ [.wgWait, .print b]⟩ := by
  induction ws with
  | nil =>
    intro n sched t a b
    simp only [List.length_nil, Nat.add_zero, List.nil_append]
    rw [show n + 5 = (n + 4) + 1 from rfl, run_cons]
    have hm : State.advance ⟨t, 1, [.print a, .wgWait, .print b], [.wgDone]⟩ true
        = .next ⟨t ++ [.print a], 1, [.wgWait, .print b], [.wgDone]⟩ := by
      simp [State.advance]
    have hw : State.advance ⟨t, 1, [.print a, .wgWait, .print b], [.wgDone]⟩ false
        = .next ⟨t ++ [.wgDone], 0, [.print a, .wgWait, .print b], []⟩ := by
      simp [State.advance]
    rcases sched with _ | ⟨p, rest⟩
    · simp only [pick, hm, workerLead]
      have h := run_waiting [] (by simp) n ([] : List Bool).tail (t ++ [.print a]) b
      simp only [List.length_nil, Nat.add_zero, List.nil_append, List.append_nil] at h
      rw [h]; simp
    · cases p
      · simp only [pick, hw, workerLead, List.tail_cons]
        rw [run_main_alone]; simp
      · simp only [pick, hm, workerLead, List.tail_cons]
        have h := run_waiting [] (by simp) n rest (t ++ [.print a]) b
        simp only [List.length_nil, Nat.add_zero, List.nil_append, List.append_nil] at h
        rw [h]; simp
  | cons e ws ih =>
    intro n sched t a b
    have he : e.plain = true := hws e (List.mem_cons_self _ _)
    have hws' : ∀ x ∈ ws, x.plain = true := fun x hx => hws x (List.mem_cons_of_mem _ hx)
    have hfuel : n + (e :: ws).length + 5 = (n + ws.length + 5) + 1 := by
      simp only [List.length_cons]; omega
    rw [hfuel, List.cons_append, run_cons]
    have hm : State.advance ⟨t, 1, [.print a, .wgWait, .print b], e :: (ws ++ [.wgDone])⟩ true
        = .next ⟨t ++ [.print a], 1, [.wgWait, .print b], e :: (ws ++ [.wgDone])⟩ := by
      simp [State.advance]
    have hw := advance_worker_plain t 1 [.print a, .wgWait, .print b] (ws ++ [.wgDone]) e he
    have hwait : ∀ s : List Bool,
        run (n + ws.length + 5) s ⟨t ++ [.print a], 1, [.wgWait, .print b], e :: (ws ++ [.wgDone])⟩
          = some ⟨0, t ++ [.print a] ++ (e :: ws) ++ [.wgDone, .wgWait, .print b]⟩ := by
      intro s
      have h := run_waiting (e :: ws) hws n s (t ++ [.print a]) b
      rw [show n + (e :: ws).length + 4 = n + ws.length + 5 by
        simp only [List.length_cons]; omega] at h
      exact h
    rcases sched with _ | ⟨p, rest⟩
    · simp only [pick, hm, workerLead]
      rw [hwait]; simp
    · cases p
      · simp only [pick, hw, workerLead, List.tail_cons]
        rw [ih hws' n rest (t ++ [e]) a b]; simp
      · simp only [pick, hm, workerLead, List.tail_cons]
        rw [hwait]; simp

/-- A callback of the tracer only prints. -/
theorem emit_tracer_plain (ev : Event) : ∀ e ∈ emit tracer ev, e.plain = true := by
  cases ev <;> simp [emit, tracer, Effect.plain]

/-- The worker, path by path. -/
theorem worker_eq (w : World) (client : Client) :
    worker w client tracer
      = .newRequest tracer.hookCount "GET" "https://www.google.com" none ::
        match w.newRequestErr with
        | some err =>
          [printf "Could not initialize NewRequestWithContext(): %v\n" [err], .wgDone]
        | none =>
          .clientDo client tracer.hookCount "GET" "https://www.google.com" none ::
          ((w.roundTrip client theRequest).1.flatMap (emit tracer) ++
           match (w.roundTrip client theRequest).2 with
           | .ok get =>
             [printf "Response header: \n" [], printf "%v\n" [get.fmtV], printf "\n" [],
              .bodyClose, .wgDone]
           | .error err => [printf "Failure: %v\n" [err], .wgDone]) := by
  unfold worker newRequestWithContext
  cases w.newRequestErr <;> rfl

/-- The worker ends with its `wg.Done`, and does nothing to the wait group before. -/
theorem worker_shape (w : World) (client : Client) :
    ∃ ws, worker w client tracer = ws ++ [.wgDone] ∧ ∀ e ∈ ws, e.plain = true := by
  rw [worker_eq]
  have hev : ∀ e ∈ (w.roundTrip client theRequest).1.flatMap (emit tracer), e.plain = true := by
    intro e he
    rcases List.mem_flatMap.mp he with ⟨ev, _, hmem⟩
    exact emit_tracer_plain ev e hmem
  rcases w.newRequestErr with _ | err
  · rcases (w.roundTrip client theRequest).2 with err | get
    · refine ⟨.newRequest tracer.hookCount "GET" "https://www.google.com" none ::
        .clientDo client tracer.hookCount "GET" "https://www.google.com" none ::
        ((w.roundTrip client theRequest).1.flatMap (emit tracer)
          ++ [printf "Failure: %v\n" [err]]), by simp, ?_⟩
      intro e he
      simp only [List.mem_cons, List.mem_append, List.mem_singleton] at he
      rcases he with rfl | rfl | he | rfl | he
      · rfl
      · rfl
      · exact hev e he
      · rfl
      · simp at he
    · refine ⟨.newRequest tracer.hookCount "GET" "https://www.google.com" none ::
        .clientDo client tracer.hookCount "GET" "https://www.google.com" none ::
        ((w.roundTrip client theRequest).1.flatMap (emit tracer)
          ++ [printf "Response header: \n" [], printf "%v\n" [get.fmtV], printf "\n" [],
              .bodyClose]), by simp, ?_⟩
      intro e he
      simp only [List.mem_cons, List.mem_append, List.mem_singleton] at he
      rcases he with rfl | rfl | he | rfl | rfl | rfl | rfl | he
      · rfl
      · rfl
      · exact hev e he
      · rfl
      · rfl
      · rfl
      · rfl
      · simp at he
  · refine ⟨[.newRequest tracer.hookCount "GET" "https://www.google.com" none,
      printf "Could not initialize NewRequestWithContext(): %v\n" [err]], by simp, ?_⟩
    intro e he
    simp only [List.mem_cons, List.mem_singleton] at he
    rcases he with rfl | rfl | he
    · rfl
    · rfl
    · simp at he

/-- Before the worker exists only the main goroutine can advance: it prints the
banner, adds one to the wait group and starts the worker. -/
theorem run_prelude (n : Nat) (sched : List Bool) (c a b : String) (body : List Effect) :
    run (n + 3) sched ⟨[], 0, [.print c, .wgAdd 1, .go body, .print a, .wgWait, .print b], []⟩
      = run n sched.tail.tail.tail
          ⟨[.print c, .wgAdd 1, .go body], 1, [.print a, .wgWait, .print b], body⟩ := by
  rw [show n + 3 = (n + 2) + 1 from rfl, run_worker_returned]
  simp only [State.advance, if_true]
  rw [show n + 2 = (n + 1) + 1 from rfl, run_worker_returned]
  simp only [State.advance, if_true]
  rw [if_neg (by decide)]
  simp only []
  rw [run_worker_returned]
  simp [State.advance]

/-- Every run of the program after flag parsing, in closed form: the process
exits with status 0, and the effects performed are the banner, `wg.Add(1)`, the
start of the worker, then the worker's effects with the line of the main
goroutine at the place the schedule gives it, then `wg.Wait` and the last line. -/
theorem mainBody_eq (demonstrateBug : Bool) (w : World) (sched : List Bool) :
    mainBody demonstrateBug w sched
      = some ⟨0,
          [(selectClient demonstrateBug).1, .wgAdd 1,
            .go (worker w (selectClient demonstrateBug).2 tracer)]
          ++ (worker w (selectClient demonstrateBug).2 tracer).take
              (workerLead sched.tail.tail.tail)
          ++ [printf "The waiting is the hardest part.\n" []]
          ++ (worker w (selectClient demonstrateBug).2 tracer).drop
              (workerLead sched.tail.tail.tail)
          ++ [.wgWait, printf "All done!\n" []]⟩ := by
  obtain ⟨ws, hW, hplain⟩ := worker_shape w (selectClient demonstrateBug).2
  have hbanner : ∃ c, (selectClient demonstrateBug).1 = .print c := by
    cases demonstrateBug <;> exact ⟨_, rfl⟩
  obtain ⟨c, hc⟩ := hbanner
  unfold mainBody mainThread
  simp only [hc, printf, List.length_cons, List.length_nil]
  have hfuel : 0 + 1 + 1 + 1 + 1 + 1 + 1 + (worker w (selectClient demonstrateBug).2 tracer).length + 1
      = (0 + ws.length + 5) + 3 := by
    rw [hW]; simp only [List.length_append, List.length_cons, List.length_nil]; omega
  rw [hfuel, run_prelude]
  generalize worker w (selectClient demonstrateBug).2 tracer = W at hW ⊢
  subst hW
  rw [run_racing ws hplain]

/-! ## The callbacks and the observations of a run -/

theorem labels_distinct_otherwise (k1 k2 : EventKind) :
    label (formatOf k1) = label (formatOf k2) ↔
      (k1 = k2 ∨ (k1 = .GetConn ∧ k2 = .GotConn) ∨ (k1 = .GotConn ∧ k2 = .GetConn)) := by
  cases k1 <;> cases k2 <;> decide

/-- The line of the callback of `ConnectDone`. -/
theorem connectDone_line (network address : String) (err : GoError) :
    emit tracer (.connectDone network address err)
      = [.print ("ConnectDone: " ++ (network ++ (": " ++ (address ++ (" (" ++ (fmtError err ++ ")\n"))))))] := rfl

/-- A callback of the tracer performs exactly one `fmt.Printf`. -/
theorem emit_tracer_print (ev : Event) : ∀ e ∈ emit tracer ev, ∃ text, e = .print text := by
  cases ev <;> simp [emit, tracer]

/-- An observation that sees no `fmt.Printf` sees nothing of the callbacks. -/
theorem filterMap_callbacks {α : Type} (f : Effect → Option α) (hf : ∀ text, f (.print text) = none)
    (events : List Event) : (events.flatMap (emit tracer)).filterMap f = [] := by
  rw [List.filterMap_eq_nil_iff]
  intro e he
  rcases List.mem_flatMap.mp he with ⟨ev, _, hmem⟩
  rcases emit_tracer_print ev e hmem with ⟨text, rfl⟩
  exact hf text

/-- The line of the main goroutine, wherever the schedule puts it among the
effects of the worker, is invisible to an observation that does not see it. -/
theorem filterMap_split {α : Type} (f : Effect → Option α) (k : Nat) (W : List Effect)
    (p : Effect) (hp : f p = none) :
    (W.take k ++ [p] ++ W.drop k).filterMap f = W.filterMap f := by
  rw [List.filterMap_append, List.filterMap_append]
  simp only [List.filterMap_cons, hp, List.filterMap_nil, List.append_nil]
  rw [← List.filterMap_append, List.take_append_drop]

/-- The worker builds one request: a GET of the URL, without a body, on a context
whose trace has eight hooks. -/
theorem requestsBuilt_worker (w : World) (client : Client) :
    requestsBuilt (worker w client tracer) = [(8, "GET", "https://www.google.com", none)] := by
  rw [worker_eq]
  unfold requestsBuilt
  rcases w.newRequestErr with _ | err
  · rcases (w.roundTrip client theRequest).2 with err | get <;>
      simp [List.filterMap_cons, List.filterMap_append, Effect.built, printf,
        filterMap_callbacks Effect.built (fun _ => rfl)] <;> rfl
  · simp [List.filterMap_cons, Effect.built, printf]; rfl

/-- The worker calls `client.Do` once with that request, unless request
construction failed, and then not at all. -/
theorem requestsSent_worker (w : World) (client : Client) :
    requestsSent (worker w client tracer)
      = match w.newRequestErr with
        | some _ => []
        | none => [(client, 8, "GET", "https://www.google.com", none)] := by
  rw [worker_eq]
  unfold requestsSent
  rcases w.newRequestErr with _ | err
  · rcases (w.roundTrip client theRequest).2 with err | get <;>
      simp [List.filterMap_cons, List.filterMap_append, Effect.sent, printf,
        filterMap_callbacks Effect.sent (fun _ => rfl)] <;> rfl
  · simp [List.filterMap_cons, Effect.sent, printf]

/-- An observation that sees only effects of the worker sees, in a run, what it
sees in the worker. -/
theorem filterMap_run {α : Type} (f : Effect → Option α) (hprint : ∀ text, f (.print text) = none)
    (hadd : ∀ n, f (.wgAdd n) = none) (hgo : ∀ body, f (.go body) = none)
    (hwait : f .wgWait = none) (c : String) (W : List Effect) (k : Nat) (a b : String) :
    ([Effect.print c, Effect.wgAdd 1, Effect.go W] ++ W.take k ++ [Effect.print a] ++ W.drop k
        ++ [Effect.wgWait, Effect.print b]).filterMap f = W.filterMap f := by
  have h := filterMap_split f k W (.print a) (hprint a)
  simp only [List.filterMap_append, List.filterMap_cons, List.filterMap_nil, hprint, hadd, hgo,
    hwait, List.nil_append, List.append_nil] at h ⊢
  exact h

/-- The banner is a `fmt.Printf`. -/
theorem selectClient_banner (demonstrateBug : Bool) :
    (selectClient demonstrateBug).1
      = .print (if demonstrateBug then "Demonstrating buggy behavior.\n"
                else "Demonstrating expected behavior.\n") := by
  cases demonstrateBug <;> rfl

/-- Standard output of a list of effects, position by position. -/
theorem stdout_eq_of_written (l1 l2 : List Effect)
    (h : l1.map Effect.written = l2.map Effect.written) : stdout l1 = stdout l2 := by
  have e : ∀ l : List Effect, stdout l = (l.map Effect.written).filterMap id := by
    intro l; simp [stdout, List.filterMap_map]
  rw [e, e, h]

/-- When the transports of two clients do the same with the request, the two
workers write the same, effect by effect. -/
theorem worker_written (w : World) (c1 c2 : Client)
    (hw : w.roundTrip c1 theRequest = w.roundTrip c2 theRequest) :
    (worker w c1 tracer).map Effect.written = (worker w c2 tracer).map Effect.written := by
  rw [worker_eq, worker_eq, hw]
  rcases w.newRequestErr with _ | err
  · simp [Effect.written]
  · rfl

/-- Standard output of a run: the banner, the lines of the worker with the line
of the main goroutine among them, and the last line. -/
theorem stdout_run (c : String) (W : List Effect) (k : Nat) (a b : String) :
    stdout ([Effect.print c, Effect.wgAdd 1, Effect.go W] ++ W.take k ++ [Effect.print a]
        ++ W.drop k ++ [Effect.wgWait, Effect.print b])
      = c :: (stdout (W.take k) ++ [a] ++ stdout (W.drop k) ++ [b]) := by
  simp [stdout, List.filterMap_append, List.filterMap_cons, Effect.written]

/-- Standard output of the worker alone, path by path. -/
theorem stdout_worker (w : World) (client : Client) :
    stdout (worker w client tracer) = workerLines w client := by
  rw [worker_eq]
  unfold workerLines
  rcases w.newRequestErr with _ | err
  · rcases (w.roundTrip client theRequest).2 with err | get
    · simp only [stdout, List.filterMap_cons, List.filterMap_append, Effect.written, printf,
        List.filterMap_nil]
      rfl
    · simp only [stdout, List.filterMap_cons, List.filterMap_append, Effect.written, printf,
        List.filterMap_nil]
      rfl
  · rfl

/-- An observation by counting that sees no `fmt.Printf` sees nothing of the callbacks. -/
theorem countP_callbacks (p : Effect → Bool) (hp : ∀ text, p (.print text) = false)
    (events : List Event) : (events.flatMap (emit tracer)).countP p = 0 := by
  rw [List.countP_eq_zero]
  intro e he
  rcases List.mem_flatMap.mp he with ⟨ev, _, hmem⟩
  rcases emit_tracer_print ev e hmem with ⟨text, rfl⟩
  simp [hp text]

/-- The worker closes the response body as its path asks. -/
theorem bodyCloses_worker (w : World) (client : Client) :
    (worker w client tracer).countP Effect.isBodyClose = expectedBodyCloses w client := by
  rw [worker_eq]
  unfold expectedBodyCloses
  rcases w.newRequestErr with _ | err
  · rcases (w.roundTrip client theRequest).2 with err | get <;>
      simp [List.countP_cons, List.countP_append, Effect.isBodyClose, printf,
        countP_callbacks Effect.isBodyClose (fun _ => rfl)]
  · simp [List.countP_cons, Effect.isBodyClose, printf]

/-- The worker calls `wg.Done` once, on each of its paths. -/
theorem wgDones_worker (w : World) (client : Client) :
    (worker w client tracer).countP Effect.isWgDone = 1 := by
  rw [worker_eq]
  rcases w.newRequestErr with _ | err
  · rcases (w.roundTrip client theRequest).2 with err | get <;>
      simp [List.countP_cons, List.countP_append, Effect.isWgDone, printf,
        countP_callbacks Effect.isWgDone (fun _ => rfl)]
  · simp [List.countP_cons, Effect.isWgDone, printf]

/-- Counting in a run effects that only the worker performs. -/
theorem countP_run (p : Effect → Bool) (hprint : ∀ text, p (.print text) = false)
    (hadd : ∀ n, p (.wgAdd n) = false) (hgo : ∀ body, p (.go body) = false)
    (hwait : p .wgWait = false) (c : String) (W : List Effect) (k : Nat) (a b : String) :
    ([Effect.print c, Effect.wgAdd 1, Effect.go W] ++ W.take k ++ [Effect.print a] ++ W.drop k
        ++ [Effect.wgWait, Effect.print b]).countP p = W.countP p := by
  have h : (W.take k).countP p + (W.drop k).countP p = W.countP p := by
    rw [← List.countP_append, List.take_append_drop]
  simp only [List.countP_append, List.countP_cons, List.countP_nil, hprint, hadd, hgo, hwait]
  simp only [Bool.false_eq_true, if_false, Nat.add_zero, Nat.zero_add]
  exact h

/-- The lines of a part of the worker are a part of the lines of the worker. -/
theorem stdout_take_drop (W : List Effect) (k : Nat) :
    stdout (W.take k) = (stdout W).take (stdout (W.take k)).length
    ∧ stdout (W.drop k) = (stdout W).drop (stdout (W.take k)).length := by
  have h : stdout W = stdout (W.take k) ++ stdout (W.drop k) := by
    unfold stdout
    rw [← List.filterMap_append, List.take_append_drop]
  rw [h]
  simp

/-- The counter after two lists of effects. -/
theorem wgCounter_append (l1 l2 : List Effect) :
    wgCounter (l1 ++ l2) = wgCounter l1 + wgCounter l2 := by
  simp [wgCounter, List.map_append, List.sum_append]

/-- Effects that leave the counter alone leave it alone together. -/
theorem wgCounter_neutral (l : List Effect) (h : ∀ e ∈ l, e.delta = 0) : wgCounter l = 0 := by
  induction l with
  | nil => rfl
  | cons e l ih =>
    have he := h e (List.mem_cons_self _ _)
    have hl := ih (fun x hx => h x (List.mem_cons_of_mem _ hx))
    simp only [wgCounter, List.map_cons, List.sum_cons] at hl ⊢
    omega

/-- A part of a list that leaves the counter alone leaves it alone. -/
theorem wgCounter_take_neutral (l : List Effect) (h : ∀ e ∈ l, e.delta = 0) (j : Nat) :
    wgCounter (l.take j) = 0 :=
  wgCounter_neutral _ (fun e he => h e (List.mem_of_mem_take he))

/-- One `wg.Add(1)`, later one `wg.Done()`, and nothing else on the wait group:
the counter is never negative and ends at zero. -/
theorem wgCounter_add_done (P M S : List Effect) (hP : ∀ e ∈ P, e.delta = 0)
    (hM : ∀ e ∈ M, e.delta = 0) (hS : ∀ e ∈ S, e.delta = 0) :
    (∀ j, 0 ≤ wgCounter ((P ++ [Effect.wgAdd 1] ++ M ++ [Effect.wgDone] ++ S).take j))
    ∧ wgCounter (P ++ [Effect.wgAdd 1] ++ M ++ [Effect.wgDone] ++ S) = 0 := by
  constructor
  · intro j
    simp only [List.take_append_eq_append_take, wgCounter_append, wgCounter_take_neutral _ hP,
      wgCounter_take_neutral _ hM, wgCounter_take_neutral _ hS, List.length_append,
      List.length_singleton]
    rcases h1 : j - P.length with _ | j1
    · have h3 : j - (P.length + 1 + M.length) = 0 := by omega
      rw [h3]; simp [wgCounter]
    · rcases h3 : j - (P.length + 1 + M.length) with _ | j3 <;>
        simp [wgCounter, Effect.delta]
  · simp only [wgCounter_append, wgCounter_neutral _ hP, wgCounter_neutral _ hM,
      wgCounter_neutral _ hS]
    simp [wgCounter, Effect.delta]

/-- A plain effect leaves the counter alone. -/
theorem delta_of_plain (e : Effect) (h : e.plain = true) : e.delta = 0 := by
  cases e <;> simp_all [Effect.plain, Effect.delta]

/-- The effects of a run have the shape `wgCounter_add_done` asks for. -/
theorem run_trace_shape (c : String) (W : List Effect) (k : Nat) (a b : String)
    (hW : ∃ ws, W = ws ++ [Effect.wgDone] ∧ ∀ e ∈ ws, e.plain = true) :
    ∃ M S, (∀ e ∈ M, e.delta = 0) ∧ (∀ e ∈ S, e.delta = 0)
      ∧ [Effect.print c, Effect.wgAdd 1, Effect.go W] ++ W.take k ++ [Effect.print a]
          ++ W.drop k ++ [Effect.wgWait, Effect.print b]
        = [Effect.print c] ++ [Effect.wgAdd 1] ++ M ++ [Effect.wgDone] ++ S := by
  obtain ⟨ws, rfl, hplain⟩ := hW
  have hd : ∀ e ∈ ws, e.delta = 0 := fun e he => delta_of_plain e (hplain e he)
  by_cases hk : k ≤ ws.length
  · refine ⟨[Effect.go (ws ++ [Effect.wgDone])] ++ ws.take k ++ [Effect.print a] ++ ws.drop k,
      [Effect.wgWait, Effect.print b], ?_, ?_, ?_⟩
    · intro e he
      simp only [List.mem_append, List.mem_singleton] at he
      rcases he with ((rfl | he) | rfl) | he
      · rfl
      · exact hd e (List.mem_of_mem_take he)
      · rfl
      · exact hd e (List.mem_of_mem_drop he)
    · intro e he
      simp only [List.mem_cons, List.mem_singleton] at he
      rcases he with rfl | rfl | he
      · rfl
      · rfl
      · simp at he
    · rw [List.take_append_of_le_length hk, List.drop_append_of_le_length hk]
      simp
  · have hk' : ws.length < k := Nat.lt_of_not_le hk
    refine ⟨[Effect.go (ws ++ [Effect.wgDone])] ++ ws,
      [Effect.print a, Effect.wgWait, Effect.print b], ?_, ?_, ?_⟩
    · intro e he
      simp only [List.mem_append, List.mem_singleton] at he
      rcases he with rfl | he
      · rfl
      · exact hd e he
    · intro e he
      simp only [List.mem_cons, List.mem_singleton] at he
      rcases he with rfl | rfl | rfl | he
      · rfl
      · rfl
      · rfl
      · simp at he
    · have ht : (ws ++ [Effect.wgDone]).take k = ws ++ [Effect.wgDone] :=
        List.take_of_length_le (by simp; omega)
      have hdrop : (ws ++ [Effect.wgDone]).drop k = [] :=
        List.drop_of_length_le (by simp; omega)
      rw [ht, hdrop]
      simp

/-! ## The claims of the specification -/

/-- Claim C1: the flag `bug`, false by default, selects the client. With no
argument `flag.Parse` leaves `demonstrateBug` false and `-bug` sets it. On every
command line that `flag.Parse` accepts, in every world and under every
schedule, the run ends, the first line written is the banner of the value of
the flag, and the worker is started with, and every `client.Do` goes through,
the client of that value: an `http2.Transport` whose `TLSClientConfig` has
`InsecureSkipVerify = true` when the flag is set, no `Transport` otherwise. -/
theorem flag_selects_client (args : List String) (w : World) (sched : List Bool)
    (demonstrateBug : Bool) (hparse : flagParse args = .ok demonstrateBug) :
    flagParse [] = .ok false ∧ flagParse ["-bug"] = .ok true ∧
    ∃ r, main args w sched = some r
      ∧ (stdout r.trace).head? = some (if demonstrateBug then "Demonstrating buggy behavior.\n"
                                        else "Demonstrating expected behavior.\n")
      ∧ (∃ client : Client,
          client = (if demonstrateBug
              then { Transport := some { TLSClientConfig := some { InsecureSkipVerify := true } } }
              else { Transport := none })
          ∧ Effect.go (worker w client tracer) ∈ r.trace
          ∧ ∀ x ∈ requestsSent r.trace, x.1 = client) := by
  refine ⟨by decide, by decide, ?_⟩
  unfold main
  rw [hparse]
  simp only []
  rw [mainBody_eq]
  refine ⟨_, rfl, ?_, (selectClient demonstrateBug).2, ?_, ?_, ?_⟩
  · simp only [selectClient_banner, printf, stdout_run, List.head?_cons]
  · cases demonstrateBug <;> rfl
  · simp
  · intro x hx
    simp only [selectClient_banner, printf] at hx
    unfold requestsSent at hx
    rw [filterMap_run Effect.sent (fun _ => rfl) (fun _ => rfl) (fun _ => rfl) rfl] at hx
    have h := requestsSent_worker w (selectClient demonstrateBug).2
    unfold requestsSent at h
    rw [h] at hx
    revert hx
    rcases w.newRequestErr with _ | err <;> intro hx
    · simp only [List.mem_singleton] at hx
      rw [hx]
    · simp at hx

/-- Claim C1, witness: the command line `-bug` in the sample world. -/
theorem flag_selects_client_witness :
    flagParse ["-bug"] = .ok true ∧
    ∃ r, main ["-bug"] sampleWorld [false, true] = some r
      ∧ (stdout r.trace).head? = some "Demonstrating buggy behavior.\n"
      ∧ ∀ x ∈ requestsSent r.trace,
          x.1 = { Transport := some { TLSClientConfig := some { InsecureSkipVerify := true } } } := by
  refine ⟨by decide, ?_⟩
  obtain ⟨_, _, r, hr, hhead, client, hclient, _, hsent⟩ :=
    flag_selects_client ["-bug"] sampleWorld [false, true] true (by decide)
  subst hclient
  exact ⟨r, hr, hhead, hsent⟩

/-- Claim C2, as amended: for every command line, every world (request
construction fails, `client.Do` fails, `client.Do` succeeds) and every schedule
the process terminates. Its exit status is 0 unless `flag.Parse` rejects the
command line (bad flag syntax, an undefined flag other than `-h` and `-help`, an
invalid boolean value for `-bug`); when `flag.Parse` rejects the command line
the exit status is 2 and nothing has been written to standard output. -/
theorem exit_code_by_flag_parsing (args : List String) (w : World) (sched : List Bool) :
    ∃ r, main args w sched = some r
      ∧ (if flagParse args = .fail then r.exitCode = 2 ∧ stdout r.trace = []
         else r.exitCode = 0) := by
  unfold main
  rcases flagParse args with b | _ | _
  · simp only [mainBody_eq]
    exact ⟨_, rfl, by simp⟩
  · exact ⟨_, rfl, by simp⟩
  · exact ⟨_, rfl, by simp [stdout]⟩

/-- Claim C2, counterexample: on the command line `-nobug`, a flag that is not
defined, the process ends with exit status 2, not 0. -/
theorem exit_code_two_on_undefined_flag :
    (main ["-nobug"] ⟨none, fun _ _ => ([], .error "unreachable")⟩ []).map Result.exitCode
      = some 2 := by
  decide

/-- Claim C3: the tracer literal holds exactly one callback for each of the eight
event kinds of the table, and these eight are all the hooks it sets. -/
theorem tracer_registers_each_kind_once :
    (∀ k : EventKind, tracer.registered k = 1) ∧ tracer.hookCount = 8 := by
  refine ⟨fun k => ?_, rfl⟩
  cases k <;> rfl

/-- Claim C4, the code at the failing input: `GotConn` and `GetConn` are two
event kinds, yet the callback of `GotConn` prints under the label of `GetConn`;
the labels of the two formats are the same text `GetConn host port: `, and the
line written for a `GotConn` event is the line a `GetConn` event would give for
a host and port that reads like the connection. -/
theorem gotConn_prints_getConn_label :
    EventKind.GotConn ≠ EventKind.GetConn
    ∧ label (formatOf .GotConn) = "GetConn host port: "
    ∧ label (formatOf .GetConn) = "GetConn host port: "
    ∧ (∀ connInfo : GotConnInfo, emit tracer (.gotConn connInfo)
        = [.print ("GetConn host port: " ++ connInfo.fmtV ++ "\n")])
    ∧ (∀ hostPort : String, emit tracer (.getConn hostPort)
        = [.print ("GetConn host port: " ++ hostPort ++ "\n")]) := by
  refine ⟨by decide, by decide, by decide, fun _ => rfl, fun _ => rfl⟩

/-- Claim C5: the two configurations issue the same request with the same tracer.
For a command line that sets the flag and one that does not, in the same world
and under the same schedule, both runs build exactly one request, a GET of
`https://www.google.com` without a body on a context whose trace has the eight
hooks of `tracer`; what they hand to `client.Do` is the same but for the client;
and when the transports of the two clients do the same with the request, the
two runs write the same lines after the banner. -/
theorem same_request_both_flags (argsBug argsBase : List String) (w : World) (sched : List Bool)
    (hbug : flagParse argsBug = .ok true) (hbase : flagParse argsBase = .ok false) :
    ∃ rBug rBase, main argsBug w sched = some rBug ∧ main argsBase w sched = some rBase
      ∧ requestsBuilt rBug.trace = [(tracer.hookCount, "GET", "https://www.google.com", none)]
      ∧ requestsBuilt rBase.trace = [(tracer.hookCount, "GET", "https://www.google.com", none)]
      ∧ (requestsSent rBug.trace).map Prod.snd = (requestsSent rBase.trace).map Prod.snd
      ∧ (w.roundTrip (selectClient true).2 theRequest
            = w.roundTrip (selectClient false).2 theRequest →
          (stdout rBug.trace).tail = (stdout rBase.trace).tail) := by
  unfold main
  rw [hbug, hbase]
  simp only []
  rw [mainBody_eq, mainBody_eq]
  refine ⟨_, _, rfl, rfl, ?_, ?_, ?_, ?_⟩
  · simp only [selectClient_banner, printf]
    unfold requestsBuilt
    rw [filterMap_run Effect.built (fun _ => rfl) (fun _ => rfl) (fun _ => rfl) rfl]
    exact requestsBuilt_worker w _
  · simp only [selectClient_banner, printf]
    unfold requestsBuilt
    rw [filterMap_run Effect.built (fun _ => rfl) (fun _ => rfl) (fun _ => rfl) rfl]
    exact requestsBuilt_worker w _
  · simp only [selectClient_banner, printf]
    have h1 := requestsSent_worker w (selectClient true).2
    have h2 := requestsSent_worker w (selectClient false).2
    unfold requestsSent at h1 h2 ⊢
    rw [filterMap_run Effect.sent (fun _ => rfl) (fun _ => rfl) (fun _ => rfl) rfl,
      filterMap_run Effect.sent (fun _ => rfl) (fun _ => rfl) (fun _ => rfl) rfl, h1, h2]
    rcases w.newRequestErr with _ | err <;> rfl
  · intro hw
    have hwr := worker_written w _ _ hw
    simp only [selectClient_banner, printf, stdout_run, List.tail_cons]
    have ht : stdout ((worker w (selectClient true).2 tracer).take (workerLead sched.tail.tail.tail))
        = stdout ((worker w (selectClient false).2 tracer).take (workerLead sched.tail.tail.tail)) :=
      stdout_eq_of_written _ _ (by rw [List.map_take, List.map_take, hwr])
    have hd : stdout ((worker w (selectClient true).2 tracer).drop (workerLead sched.tail.tail.tail))
        = stdout ((worker w (selectClient false).2 tracer).drop (workerLead sched.tail.tail.tail)) :=
      stdout_eq_of_written _ _ (by rw [List.map_drop, List.map_drop, hwr])
    rw [ht, hd]

/-- Claim C5, witness: the command lines `-bug` and the empty one in the sample
world, whose transport does the same for both clients. -/
theorem same_request_both_flags_witness :
    flagParse ["-bug"] = .ok true ∧ flagParse [] = .ok false ∧
    ∃ rBug rBase, main ["-bug"] sampleWorld [false, false] = some rBug
      ∧ main [] sampleWorld [false, false] = some rBase
      ∧ requestsBuilt rBug.trace = requestsBuilt rBase.trace
      ∧ (stdout rBug.trace).tail = (stdout rBase.trace).tail := by
  refine ⟨by decide, by decide, ?_⟩
  obtain ⟨rBug, rBase, h1, h2, hb1, hb2, _, hout⟩ :=
    same_request_both_flags ["-bug"] [] sampleWorld [false, false] (by decide) (by decide)
  exact ⟨rBug, rBase, h1, h2, hb1.trans hb2.symm, hout rfl⟩

/-- Claim C8: for either value of the flag, in every world (so on every path of
the worker) and under every schedule the run ends with status 0; there is one
`wg.Add`, of 1, and one `wg.Done`; the counter of the wait group is never
negative after any number of effects and is zero at the end; `wg.Wait` returns;
and the last line written is `All done!`. -/
theorem wait_group_balanced (demonstrateBug : Bool) (w : World) (sched : List Bool) :
    ∃ r, mainBody demonstrateBug w sched = some r
      ∧ r.exitCode = 0
      ∧ r.trace.filter Effect.isWgAdd = [Effect.wgAdd 1]
      ∧ r.trace.countP Effect.isWgDone = 1
      ∧ (∀ j, 0 ≤ wgCounter (r.trace.take j))
      ∧ wgCounter r.trace = 0
      ∧ Effect.wgWait ∈ r.trace
      ∧ (stdout r.trace).getLast? = some "All done!\n" := by
  rw [mainBody_eq]
  refine ⟨_, rfl, rfl, ?_, ?_, ?_, ?_, ?_, ?_⟩
  · obtain ⟨ws, hW, hplain⟩ := worker_shape w (selectClient demonstrateBug).2
    have hn : ∀ l : List Effect, (∀ e ∈ l, e.plain = true) → l.filter Effect.isWgAdd = [] := by
      intro l hl
      rw [List.filter_eq_nil_iff]
      intro e he
      have := hl e he
      cases e <;> simp_all [Effect.plain, Effect.isWgAdd]
    have h1 : (worker w (selectClient demonstrateBug).2 tracer).filter Effect.isWgAdd = [] := by
      rw [hW, List.filter_append, hn ws hplain]; rfl
    have h2 : ∀ k, ((worker w (selectClient demonstrateBug).2 tracer).take k).filter
        Effect.isWgAdd = [] := by
      intro k
      rw [List.filter_eq_nil_iff]
      intro e he
      exact (List.filter_eq_nil_iff.mp h1) e (List.mem_of_mem_take he)
    have h3 : ∀ k, ((worker w (selectClient demonstrateBug).2 tracer).drop k).filter
        Effect.isWgAdd = [] := by
      intro k
      rw [List.filter_eq_nil_iff]
      intro e he
      exact (List.filter_eq_nil_iff.mp h1) e (List.mem_of_mem_drop he)
    simp only [selectClient_banner, printf, List.filter_append, h2, h3]
    rfl
  · simp only [selectClient_banner, printf]
    rw [countP_run Effect.isWgDone (fun _ => rfl) (fun _ => rfl) (fun _ => rfl) rfl]
    exact wgDones_worker w _
  · obtain ⟨M, S, hM, hS, hshape⟩ := run_trace_shape
      (if demonstrateBug then "Demonstrating buggy behavior.\n"
        else "Demonstrating expected behavior.\n")
      (worker w (selectClient demonstrateBug).2 tracer) (workerLead sched.tail.tail.tail)
      (sprintf "The waiting is the hardest part.\n" []) (sprintf "All done!\n" [])
      (worker_shape w _)
    simp only [selectClient_banner, printf]
    rw [hshape]
    exact (wgCounter_add_done _ M S (by intro e he; simp at he; rw [he]; rfl) hM hS).1
  · obtain ⟨M, S, hM, hS, hshape⟩ := run_trace_shape
      (if demonstrateBug then "Demonstrating buggy behavior.\n"
        else "Demonstrating expected behavior.\n")
      (worker w (selectClient demonstrateBug).2 tracer) (workerLead sched.tail.tail.tail)
      (sprintf "The waiting is the hardest part.\n" []) (sprintf "All done!\n" [])
      (worker_shape w _)
    simp only [selectClient_banner, printf]
    rw [hshape]
    exact (wgCounter_add_done _ M S (by intro e he; simp at he; rw [he]; rfl) hM hS).2
  · simp
  · simp only [selectClient_banner, printf, stdout_run]
    rw [show sprintf "All done!\n" [] = "All done!\n" from by decide, List.getLast?_eq_some_iff]
    exact ⟨_, by rw [← List.cons_append]⟩

/-- Claim C9: one request, one response. In every run `client.Do` is called once
with the request built, and not at all when request construction failed; the
response body is closed once when `client.Do` returned no error and never
otherwise; and standard output is the banner, the lines of the worker for its
path (`workerLines`: only `Could not initialize NewRequestWithContext(): ...`
when construction failed, the callbacks and `Failure: ...` when `client.Do`
failed) with the line of the main goroutine somewhere among them, and
`All done!`. -/
theorem single_request_single_response (demonstrateBug : Bool) (w : World) (sched : List Bool) :
    ∃ r, mainBody demonstrateBug w sched = some r
      ∧ requestsSent r.trace
          = (match w.newRequestErr with
            | some _ => []
            | none => [((selectClient demonstrateBug).2, tracer.hookCount, "GET",
                        "https://www.google.com", none)])
      ∧ r.trace.countP Effect.isBodyClose = expectedBodyCloses w (selectClient demonstrateBug).2
      ∧ ∃ k, stdout r.trace
          = (if demonstrateBug then "Demonstrating buggy behavior.\n"
              else "Demonstrating expected behavior.\n")
            :: ((workerLines w (selectClient demonstrateBug).2).take k
                ++ ["The waiting is the hardest part.\n"]
                ++ (workerLines w (selectClient demonstrateBug).2).drop k
                ++ ["All done!\n"]) := by
  rw [mainBody_eq]
  refine ⟨_, rfl, ?_, ?_, ?_⟩
  · simp only [selectClient_banner, printf]
    have h := requestsSent_worker w (selectClient demonstrateBug).2
    unfold requestsSent at h ⊢
    rw [filterMap_run Effect.sent (fun _ => rfl) (fun _ => rfl) (fun _ => rfl) rfl, h]
    rcases w.newRequestErr with _ | err <;> rfl
  · simp only [selectClient_banner, printf]
    rw [countP_run Effect.isBodyClose (fun _ => rfl) (fun _ => rfl) (fun _ => rfl) rfl]
    exact bodyCloses_worker w _
  · have h := stdout_take_drop (worker w (selectClient demonstrateBug).2 tracer)
      (workerLead sched.tail.tail.tail)
    rw [stdout_worker] at h
    refine ⟨(stdout ((worker w (selectClient demonstrateBug).2 tracer).take
      (workerLead sched.tail.tail.tail))).length, ?_⟩
    simp only [selectClient_banner, printf, stdout_run]
    rw [← h.1, ← h.2]
    rfl

/-- Claim C10: the line the callback of `TLSHandshakeDone` writes does not depend
on its error operand, whereas the lines the callback of `ConnectDone` writes for
two errors are the same only when `%v` renders the two errors alike. -/
theorem tlsHandshakeDone_ignores_error (tlsConnState : ConnectionState) (network address : String)
    (e1 e2 : GoError) :
    emit tracer (.tlsHandshakeDone tlsConnState e1) = emit tracer (.tlsHandshakeDone tlsConnState e2)
    ∧ (emit tracer (.connectDone network address e1) = emit tracer (.connectDone network address e2)
        ↔ fmtError e1 = fmtError e2) := by
  refine ⟨rfl, ?_⟩
  rw [connectDone_line, connectDone_line]
  constructor
  · intro h
    simp only [List.cons.injEq, Effect.print.injEq, and_true] at h
    have h2 := congrArg String.data h
    simp only [String.data_append] at h2
    have h3 := List.append_cancel_left h2
    have h4 := List.append_cancel_left h3
    have h5 := List.append_cancel_left h4
    have h6 := List.append_cancel_left h5
    have h7 := List.append_cancel_right (List.append_cancel_left h6)
    exact String.ext h7
  · intro h; rw [h]

end Repro
